import Mathlib

/- Verification of the LabJack streaming acquisition program
(src/test.py, class LabJackStreamer, with configuration shared by
src/ljreader.py) against its natural-language design specification.
The per-channel display buffers are Python collections.deque objects
with a maxlen bound; the acquisition session is the LabJackStreamer
object with its handle, file, buffers and timer; polls are calls of
read_stream_data driven by a QTimer. -/

namespace LJReader

/-- Sample values carried by the stream. Python floats are modelled as
rationals: every claim at hand only moves values verbatim, so the
modelling is exact. -/
abbrev Val := ℚ

/-- Last n elements of a list, kept in order. -/
def lastN (n : Nat) (l : List α) : List α := l.drop (l.length - n)

/-- Model of a Python collections.deque with a maxlen bound, as used for
self.plot_buffers in src/test.py line 26: the list holds the retained
elements oldest first, and maxlen is the fixed capacity. -/
structure Deque (α : Type) where
  maxlen : Nat
  data : List α
deriving DecidableEq

/-- Fresh deque of capacity C, as built by deque(maxlen=C). -/
def Deque.empty (α : Type) (C : Nat) : Deque α := ⟨C, []⟩

/-- One deque.append(x): the new element is added on the right and, when
the deque is at capacity, the oldest element drops off the left. -/
def Deque.push (d : Deque α) (x : α) : Deque α :=
  ⟨d.maxlen, lastN d.maxlen (d.data ++ [x])⟩

/-- Appending a whole batch element by element, as the per-scan loop of
read_stream_data does for one channel across one poll. -/
def Deque.extend (d : Deque α) (b : List α) : Deque α :=
  b.foldl Deque.push d

/-- Reading the deque out oldest-to-newest, as list(deque) does in
update_plots (src/test.py line 151). -/
def Deque.snapshot (d : Deque α) : List α := d.data

theorem length_lastN (n : Nat) (l : List α) :
    (lastN n l).length = min n l.length := by
  simp [lastN]
  omega

theorem lastN_of_le (n : Nat) (l : List α) (h : l.length ≤ n) :
    lastN n l = l := by
  have : l.length - n = 0 := by omega
  simp [lastN, this]

theorem lastN_append_right (n : Nat) (l1 l2 : List α) (h : n ≤ l2.length) :
    lastN n (l1 ++ l2) = lastN n l2 := by
  have harith : l1.length + l2.length - n = l1.length + (l2.length - n) := by
    omega
  simp [lastN, harith, List.drop_append]

theorem lastN_lastN_append (C : Nat) (m r : List α) :
    lastN C (lastN C m ++ r) = lastN C (m ++ r) := by
  rcases le_or_lt m.length C with h | h
  · rw [lastN_of_le C m h]
  · have hsplit : m ++ r = m.take (m.length - C) ++ (lastN C m ++ r) := by
      rw [← List.append_assoc]
      simp [lastN]
    have hlen : C ≤ (lastN C m ++ r).length := by
      rw [List.length_append, length_lastN]
      omega
    rw [hsplit, lastN_append_right _ _ _ hlen]

theorem Deque.extend_data (C : Nat) (l : List α) (b : List α)
    (h : l.length ≤ C) :
    Deque.extend ⟨C, l⟩ b = ⟨C, lastN C (l ++ b)⟩ := by
  induction b generalizing l with
  | nil => simp [Deque.extend, lastN_of_le C l h]
  | cons a b ih =>
      have hstep : Deque.extend ⟨C, l⟩ (a :: b)
          = Deque.extend ⟨C, lastN C (l ++ [a])⟩ b := by
        simp [Deque.extend, Deque.push]
      have hlen : (lastN C (l ++ [a])).length ≤ C := by
        rw [length_lastN]
        omega
      rw [hstep, ih _ hlen, lastN_lastN_append]
      simp

/-- Claim C3. For every capacity C > 0 and every sequence of appended
batches, the deque snapshot equals the last C elements of the
concatenation of all appended batches in oldest-to-newest order,
regardless of the chunking into batches. -/
theorem C3_ring_snapshot_lastN (C : Nat) (hC : 0 < C)
    (batches : List (List Val)) :
    (batches.foldl Deque.extend (Deque.empty Val C)).snapshot
      = lastN C batches.flatten := by
  suffices h : ∀ (l : List Val), l.length ≤ C →
      (batches.foldl Deque.extend (⟨C, l⟩ : Deque Val)).snapshot
        = lastN C (l ++ batches.flatten) by
    simpa [Deque.empty] using h [] (by simp)
  induction batches with
  | nil => intro l hl; simp [Deque.snapshot, lastN_of_le C l hl]
  | cons b bs ih =>
      intro l hl
      have hlen : (lastN C (l ++ b)).length ≤ C := by
        rw [length_lastN]; omega
      calc ((b :: bs).foldl Deque.extend (⟨C, l⟩ : Deque Val)).snapshot
          = (bs.foldl Deque.extend (⟨C, lastN C (l ++ b)⟩ : Deque Val)).snapshot := by
            rw [List.foldl_cons, Deque.extend_data C l b hl]
        _ = lastN C (lastN C (l ++ b) ++ bs.flatten) := ih _ hlen
        _ = lastN C ((l ++ b) ++ bs.flatten) := lastN_lastN_append C _ _
        _ = lastN C (l ++ (b :: bs).flatten) := by simp

/-- Witness for C3 at the scenario of the specification: capacity 5,
appending [1,2,3] then [4,5,6,7] yields snapshot [3,4,5,6,7]. -/
theorem C3_witness :
    0 < 5 ∧
    ([[1, 2, 3], [4, 5, 6, 7]].foldl Deque.extend (Deque.empty Val 5)).snapshot
      = [3, 4, 5, 6, 7] := by
  refine ⟨by decide, ?_⟩
  have h := C3_ring_snapshot_lastN 5 (by decide) [[1, 2, 3], [4, 5, 6, 7]]
  exact h.trans (by decide)

/-- Session configuration, fixed in LabJackStreamer.__init__
(src/test.py lines 14-23): sample rate in Hz, channel count, channel
names, channel Modbus addresses, poll interval in ms and display buffer
capacity. -/
structure Config where
  scanRate : Nat
  numChannels : Nat
  channels : List String
  channelAddresses : List Nat
  readInterval : Nat
  plotBufferSize : Nat
deriving DecidableEq

/-- Configuration values hard-coded in __init__: 1000 Hz, channels AIN0
and AIN1 (Modbus addresses 0 and 2), a 100 ms read interval and 5000
display points. -/
def defaultConfig : Config :=
  ⟨1000, 2, ["AIN0", "AIN1"], [0, 2], 100, 5000⟩

/-- One line of the data file written by the program: either the CSV
header written in start_streaming (line 78) or one scan line written in
read_stream_data (line 130), holding a wall-clock timestamp followed by
the channel values of that scan. Fields are modelled as values rather
than as their decimal rendering. -/
inductive FileLine where
  | header (cols : List String)
  | scanLine (timestamp : Val) (values : List Val)
deriving DecidableEq

/-- Mutable state of the LabJackStreamer object: whether self.handle and
self.file_handle are set, the contents written to the current data file,
the per-channel display deques, and whether the read QTimer is running
(the running timer is what makes the session Streaming). -/
structure LJState where
  handle : Bool
  fileOpen : Bool
  fileLines : List FileLine
  plotBuffers : List (Deque Val)
  timerOn : Bool
deriving DecidableEq

/-- State of a fresh LabJackStreamer after __init__: nothing open, no
timer, one empty deque of capacity plot_buffer_size per channel. -/
def initState (cfg : Config) : LJState :=
  ⟨false, false, [],
    List.replicate cfg.numChannels (Deque.empty Val cfg.plotBufferSize),
    false⟩

/-- Commands sent to the LabJack device library, in issue order. -/
inductive DevCmd where
  | openDev
  | streamStart (scansPerRead numChannels : Nat)
      (channelAddresses : List Nat) (scanRate : Nat)
  | streamRead
  | streamStop
  | closeDev
deriving DecidableEq

/-- Translation of scans_per_read = int(self.scan_rate * self.read_interval
/ 1000) (src/test.py line 82). The Python expression divides two
nonnegative integers as floats and truncates, which is floor division;
natural-number division models it exactly for the magnitudes involved. -/
def scansPerRead (scanRate readInterval : Nat) : Nat :=
  scanRate * readInterval / 1000

/-- Whether the two device calls inside the try of cleanup_stream
succeed: ljm.eStreamStop (which raises when no stream is running) and
ljm.close. -/
structure CleanupEnv where
  stopOk : Bool
  closeOk : Bool
deriving DecidableEq

/-- Cleanup environment in which both device calls succeed. -/
def cleanOk : CleanupEnv := ⟨true, true⟩

/-- Translation of cleanup_stream (src/test.py lines 164-176). The try
block runs, in order, eStreamStop, close and self.handle = None, and any
exception is swallowed by the bare except — so if eStreamStop raises,
close is never called and the handle stays set; if close raises, the
handle also stays set. The file branch sits outside the try: an open
file is always closed. The file contents written so far stay as they
are. -/
def cleanupStream (s : LJState) (env : CleanupEnv) :
    LJState × List DevCmd :=
  if s.handle then
    if env.stopOk = false then
      ({ s with fileOpen := false }, [DevCmd.streamStop])
    else if env.closeOk = false then
      ({ s with fileOpen := false }, [DevCmd.streamStop, DevCmd.closeDev])
    else
      ({ s with handle := false, fileOpen := false },
        [DevCmd.streamStop, DevCmd.closeDev])
  else
    ({ s with fileOpen := false }, [])

/-- Which steps of start_streaming succeed — the ljm.openS call, the
open() of the data file, and the ljm.eStreamStart call — together with
the behavior of the device calls of cleanup_stream, should the exception
path run it. -/
structure StartEnv where
  openOk : Bool
  fileOpenOk : Bool
  streamStartOk : Bool
  cleanup : CleanupEnv
deriving DecidableEq

/-- Environment in which every start step succeeds. -/
def allOk : StartEnv := ⟨true, true, true, cleanOk⟩

/-- CSV header line written right after the file is opened:
"timestamp" followed by the channel names. -/
def headerLine (cfg : Config) : FileLine :=
  FileLine.header ("timestamp" :: cfg.channels)

/-- Translation of start_streaming (src/test.py lines 68-104). The body
runs openS, then opens a fresh data file and writes the header, then
computes scans_per_read and issues eStreamStart, then starts the read
timer; any exception is caught and routed to cleanup_stream. The result
carries the new state, the device commands issued in order, and whether
a fault was reported. -/
def startStreaming (cfg : Config) (s : LJState) (env : StartEnv) :
    LJState × List DevCmd × Bool :=
  if env.openOk = false then
    let r := cleanupStream s env.cleanup
    (r.1, DevCmd.openDev :: r.2, true)
  else
    let sOpened := { s with handle := true }
    if env.fileOpenOk = false then
      let r := cleanupStream sOpened env.cleanup
      (r.1, DevCmd.openDev :: r.2, true)
    else
      let sFile :=
        { sOpened with fileOpen := true, fileLines := [headerLine cfg] }
      let startCmd := DevCmd.streamStart
        (scansPerRead cfg.scanRate cfg.readInterval) cfg.numChannels
        cfg.channelAddresses cfg.scanRate
      if env.streamStartOk = false then
        let r := cleanupStream sFile env.cleanup
        (r.1, DevCmd.openDev :: startCmd :: r.2, true)
      else
        ({ sFile with timerOn := true }, [DevCmd.openDev, startCmd], false)

/-- Translation of stop_streaming (src/test.py lines 153-162): the read
timer is stopped first, then cleanup_stream runs with the given device
behavior. The button updates and the console print are UI only. -/
def stopStreaming (s : LJState) (env : CleanupEnv) :
    LJState × List DevCmd :=
  cleanupStream { s with timerOn := false } env

/-- Values of channel ch among the complete scans of one interleaved
block: data[i * num_channels + ch] for i in range(len(data) //
num_channels), exactly the values the poll loop appends to
plot_buffers[ch]. -/
def pollChannelValues (block : List Val) (K ch : Nat) : List Val :=
  (List.range (block.length / K)).map (fun i => block.getD (i * K + ch) 0)

/-- Scan number i of an interleaved block: the K values
data[i * K + ch] for ch in range(K). -/
def scanOf (block : List Val) (K i : Nat) : List Val :=
  (List.range K).map (fun ch => block.getD (i * K + ch) 0)

/-- All complete scans of a block, in order; the trailing len(data) mod K
values belong to no scan. -/
def scansIn (block : List Val) (K : Nat) : List (List Val) :=
  (List.range (block.length / K)).map (scanOf block K)

/-- CSV lines one poll writes: one line per complete scan, carrying that
scan's wall-clock timestamp (ts i models datetime.now().timestamp() at
scan i) and the scan's K channel values. -/
def pollLines (block : List Val) (K : Nat) (ts : Nat → Val) :
    List FileLine :=
  (List.range (block.length / K)).map
    (fun i => FileLine.scanLine (ts i) (scanOf block K i))

/-- Effect of the poll loop on the display deques: walking the buffer
list, the deque at index ch (for ch in range(num_channels), mirrored by
the index guard) receives that channel's values of the block's complete
scans. -/
def appendToBuffers (block : List Val) (K : Nat) :
    Nat → List (Deque Val) → List (Deque Val)
  | _, [] => []
  | ch, d :: rest =>
      if ch < K then
        d.extend (pollChannelValues block K ch)
          :: appendToBuffers block K (ch + 1) rest
      else
        d :: appendToBuffers block K (ch + 1) rest

/-- Outcome of one ljm.eStreamRead call: a data block together with the
per-scan timestamp oracle and the two backlog counters (the code reads
only ret[0]), the distinguished NO_SCANS_RETURNED condition, another
LJMError, or a non-LJM exception. The fault outcomes carry the behavior
of the device calls of the cleanup_stream that the error handler
triggers. -/
inductive PollResult where
  | blockData (block : List Val) (ts : Nat → Val)
      (deviceBacklog ljmBacklog : Nat)
  | noScans
  | streamFault (cEnv : CleanupEnv)
  | readFault (cEnv : CleanupEnv)

/-- Translation of read_stream_data (src/test.py lines 106-145). On data,
the per-scan loop appends each value to its channel's deque and writes
one CSV line per scan; its net effect is split here into the file part
(pollLines) and the buffer part (appendToBuffers). NO_SCANS_RETURNED is
ignored. Any other error prints a fault and calls stop_streaming. -/
def readStreamData (cfg : Config) (s : LJState) (r : PollResult) :
    LJState × List DevCmd × Bool :=
  match r with
  | .blockData block ts _ _ =>
      ({ s with
          fileLines := s.fileLines ++ pollLines block cfg.numChannels ts,
          plotBuffers := appendToBuffers block cfg.numChannels 0 s.plotBuffers },
        [DevCmd.streamRead], false)
  | .noScans => (s, [DevCmd.streamRead], false)
  | .streamFault cEnv =>
      let r := stopStreaming s cEnv
      (r.1, DevCmd.streamRead :: r.2, true)
  | .readFault cEnv =>
      let r := stopStreaming s cEnv
      (r.1, DevCmd.streamRead :: r.2, true)

/-- Sequence of timer-driven polls: states are threaded through
read_stream_data, device commands are concatenated in order, and a fault
in any poll is remembered. -/
def runPolls (cfg : Config) (s : LJState) :
    List PollResult → LJState × List DevCmd × Bool
  | [] => (s, [], false)
  | r :: rest =>
      let one := readStreamData cfg s r
      let more := runPolls cfg one.1 rest
      (more.1, one.2.1 ++ more.2.1, one.2.2 || more.2.2)

/-- Bool test for a scan line. -/
def FileLine.isScan : FileLine → Bool
  | .scanLine _ _ => true
  | .header _ => false

/-- Cumulative number of scans persisted in the current data file,
derivable from the file contents (the code keeps no separate counter). -/
def totalScansWritten (s : LJState) : Nat :=
  (s.fileLines.filter FileLine.isScan).length

/-- Reader of the data file that knows only the channel layout: it drops
the header and the timestamp field and recovers one row of channel
values per scan line. -/
def readBack (lines : List FileLine) : List (List Val) :=
  lines.filterMap (fun l =>
    match l with
    | .scanLine _ vals => some vals
    | .header _ => none)

/-- Follows the claim C2 text: scansPerPoll =
max(1, round(sampleRate × pollIntervalMs / 1000)). -/
def specScansPerPoll (sampleRate pollIntervalMs : Nat) : Nat :=
  (max 1 (round ((sampleRate * pollIntervalMs : ℚ) / 1000))).toNat

/-- Follows the specification text for the SampleDemultiplexer: with
decimation factor D, the scans at indices 0, D, 2D, ... are kept in full
and all others are dropped; this gives channel ch of the kept scans. -/
def specDecimatedChannel (block : List Val) (K D ch : Nat) : List Val :=
  (((List.range (block.length / K)).filter (fun i => i % D == 0)).map
    (fun i => block.getD (i * K + ch) 0))

/-- Session state after a clean start with the default configuration. -/
def streamingExample : LJState :=
  (startStreaming defaultConfig (initState defaultConfig) allOk).1

/-- Claim C2, amended: at start the code computes scans_per_read once as
the floor of sampleRate × pollIntervalMs / 1000, with no lower clamp,
and passes exactly that value to the device stream-start command
together with the channel count, channel addresses and sample rate; in
particular 1000 Hz with a 100 ms interval yields 100. -/
theorem C2_scans_per_read_passed (cfg : Config) (s : LJState)
    (env : StartEnv) (h1 : env.openOk = true) (h2 : env.fileOpenOk = true)
    (h3 : env.streamStartOk = true) :
    (startStreaming cfg s env).2.1
      = [DevCmd.openDev,
         DevCmd.streamStart (scansPerRead cfg.scanRate cfg.readInterval)
           cfg.numChannels cfg.channelAddresses cfg.scanRate]
    ∧ scansPerRead 1000 100 = 100 := by
  constructor
  · simp [startStreaming, h1, h2, h3]
  · decide

/-- Witness for C2 at the default configuration with every start step
succeeding. -/
theorem C2_witness :
    (startStreaming defaultConfig (initState defaultConfig) allOk).2.1
      = [DevCmd.openDev,
         DevCmd.streamStart
           (scansPerRead defaultConfig.scanRate defaultConfig.readInterval)
           defaultConfig.numChannels defaultConfig.channelAddresses
           defaultConfig.scanRate]
    ∧ scansPerRead 1000 100 = 100 :=
  C2_scans_per_read_passed defaultConfig (initState defaultConfig) allOk
    rfl rfl rfl

/-- Counterexample to claim C2 as stated: with a 4 Hz sample rate and the
100 ms interval the code computes int(4 × 100 / 1000) = 0 and passes 0
to stream-start, while the claimed formula max(1, round(·)) gives 1. -/
theorem C2_counterexample :
    scansPerRead 4 100 = 0
    ∧ specScansPerPoll 4 100 = 1
    ∧ (startStreaming { defaultConfig with scanRate := 4 }
        (initState { defaultConfig with scanRate := 4 }) allOk).2.1
      = [DevCmd.openDev, DevCmd.streamStart 0 2 [0, 2] 4] := by
  refine ⟨rfl, ?_, by decide⟩
  unfold specScansPerPoll
  have hq : ((4 : ℕ) : ℚ) * ((100 : ℕ) : ℚ) / 1000 = 2 / 5 := by
    norm_num
  have hr : round ((2 : ℚ) / 5) = 0 := by
    rw [round_eq]
    have h9 : ((2 : ℚ) / 5 + 1 / 2) = 9 / 10 := by norm_num
    rw [h9, Int.floor_eq_zero_iff]
    constructor <;> norm_num
  rw [hq, hr]
  decide

/-- Claim C4, confirmed: any number of consecutive NO_SCANS_RETURNED
polls leaves the whole session state unchanged — in particular the log
file, the display buffers and the derived cumulative scan count — keeps
the session Streaming, and surfaces no fault. -/
theorem C4_no_scans_transient (cfg : Config) (s : LJState) (n : Nat)
    (hs : s.timerOn = true) :
    runPolls cfg s (List.replicate n PollResult.noScans)
      = (s, List.replicate n DevCmd.streamRead, false)
    ∧ (runPolls cfg s (List.replicate n PollResult.noScans)).1.timerOn = true
    ∧ totalScansWritten
        (runPolls cfg s (List.replicate n PollResult.noScans)).1
      = totalScansWritten s := by
  have key : runPolls cfg s (List.replicate n PollResult.noScans)
      = (s, List.replicate n DevCmd.streamRead, false) := by
    induction n with
    | zero => simp [runPolls]
    | succ n ih =>
        simp only [List.replicate_succ, runPolls, readStreamData, ih]
        simp
  exact ⟨key, by rw [key]; exact hs, by rw [key]⟩

/-- Witness for C4 at the scenario of the specification: two consecutive
no-scans transients from a freshly started default session. -/
theorem C4_witness :
    runPolls defaultConfig streamingExample
        (List.replicate 2 PollResult.noScans)
      = (streamingExample, List.replicate 2 DevCmd.streamRead, false)
    ∧ (runPolls defaultConfig streamingExample
        (List.replicate 2 PollResult.noScans)).1.timerOn = true
    ∧ totalScansWritten
        (runPolls defaultConfig streamingExample
          (List.replicate 2 PollResult.noScans)).1
      = totalScansWritten streamingExample :=
  C4_no_scans_transient defaultConfig streamingExample 2 rfl

/-- Counterexample to claim C6 as stated, at the scenario where opening
the data file fails during start and the cleanup's eStreamStop raises —
which it does there, since no stream was running. First, a device
command has already been issued before the abort: openS ran first, and
the exception path then attempts stream-stop, so the command trace is
[openDev, streamStop], not empty. Second, the partially-acquired device
handle is not released: the swallowed stream-stop exception skips
ljm.close and the handle reset, so the session does not return to a
fully Idle, resource-free state. -/
theorem C6_counterexample :
    (startStreaming defaultConfig (initState defaultConfig)
        ⟨true, false, true, ⟨false, true⟩⟩).2.1
      = [DevCmd.openDev, DevCmd.streamStop]
    ∧ (startStreaming defaultConfig (initState defaultConfig)
        ⟨true, false, true, ⟨false, true⟩⟩).2.1 ≠ ([] : List DevCmd)
    ∧ (startStreaming defaultConfig (initState defaultConfig)
        ⟨true, false, true, ⟨false, true⟩⟩).1.handle = true := by
  exact ⟨by decide, by decide, by decide⟩

/-- Claim C6, amended: a failure of the file open happens after the
device open, not before any device command; any failure in the start
sequence from an Idle session reports the fault and leaves the session
not streaming and with no open file — a file that was opened is closed —
but the device handle is released only when either no device was opened
or the cleanup's stream-stop and close calls both succeed; when the
swallowed stream-stop raises, as when no stream was running, the handle
stays held. -/
theorem C6_start_failure_rollback (cfg : Config) (s : LJState)
    (env : StartEnv)
    (hIdle : s.handle = false ∧ s.fileOpen = false ∧ s.timerOn = false)
    (hfail : env.openOk = false ∨ env.fileOpenOk = false
      ∨ env.streamStartOk = false) :
    (startStreaming cfg s env).2.2 = true
    ∧ (startStreaming cfg s env).1.fileOpen = false
    ∧ (startStreaming cfg s env).1.timerOn = false
    ∧ ((startStreaming cfg s env).1.handle = false
        ↔ (env.openOk = false
           ∨ (env.cleanup.stopOk = true ∧ env.cleanup.closeOk = true))) := by
  obtain ⟨h1, h2, h3⟩ := hIdle
  obtain ⟨o, f, st, ⟨cs, cc⟩⟩ := env
  cases o <;> cases f <;> cases st <;> cases cs <;> cases cc <;>
    simp_all [startStreaming, cleanupStream]

/-- Witness for C6: the stream-start step fails on an Idle default
session and both cleanup device calls succeed; the fault is reported,
file and timer are off, and the handle release condition holds. -/
theorem C6_witness :
    (startStreaming defaultConfig (initState defaultConfig)
        ⟨true, true, false, cleanOk⟩).2.2 = true
    ∧ (startStreaming defaultConfig (initState defaultConfig)
        ⟨true, true, false, cleanOk⟩).1.fileOpen = false
    ∧ (startStreaming defaultConfig (initState defaultConfig)
        ⟨true, true, false, cleanOk⟩).1.timerOn = false
    ∧ ((startStreaming defaultConfig (initState defaultConfig)
        ⟨true, true, false, cleanOk⟩).1.handle = false
        ↔ ((⟨true, true, false, cleanOk⟩ : StartEnv).openOk = false
           ∨ ((⟨true, true, false, cleanOk⟩ : StartEnv).cleanup.stopOk
                = true
              ∧ (⟨true, true, false, cleanOk⟩ : StartEnv).cleanup.closeOk
                = true))) :=
  C6_start_failure_rollback defaultConfig (initState defaultConfig)
    ⟨true, true, false, cleanOk⟩ ⟨rfl, rfl, rfl⟩ (Or.inr (Or.inr rfl))

/-- Counterexample to claim C7 as stated: a clean stop of a started
session appends no metadata footer — the file line count is unchanged
rather than grown by one footer line. -/
theorem C7_counterexample :
    ¬ ((stopStreaming streamingExample cleanOk).1.fileLines.length
        = streamingExample.fileLines.length + 1) := by
  decide

/-- Claim C7, amended: stop_streaming appends nothing to the data file —
there is no metadata footer anywhere in the program; stop cancels the
timer, best-effort stops and closes the device, and closes the file,
leaving the file contents exactly as written during streaming, whatever
the device calls of the cleanup do. -/
theorem C7_stop_writes_nothing (s : LJState) (env : CleanupEnv) :
    (stopStreaming s env).1.fileLines = s.fileLines := by
  unfold stopStreaming cleanupStream
  split_ifs <;> rfl

/-- Claim C8, confirmed: calling stop while the session is already Idle
— no device handle, no open file, timer not running — performs no file
write and no device command and leaves the state untouched (and the stop
path can signal no fault). -/
theorem C8_stop_idempotent (s : LJState) (env : CleanupEnv)
    (h1 : s.handle = false) (h2 : s.fileOpen = false)
    (h3 : s.timerOn = false) :
    stopStreaming s env = (s, []) := by
  obtain ⟨hd, fo, fl, pb, t⟩ := s
  simp_all [stopStreaming, cleanupStream]

/-- Witness for C8: stopping the fresh Idle default session is a no-op. -/
theorem C8_witness :
    stopStreaming (initState defaultConfig) cleanOk
      = (initState defaultConfig, []) :=
  C8_stop_idempotent (initState defaultConfig) cleanOk rfl rfl rfl

/-- Counterexample to claim C5 as stated: the display path has no
decimation factor; already at D = 2 the values the code appends for
channel 0 of the block [1,2,3,4] — namely [1,3], one per scan — differ
from the specified decimation, which would keep scan 0 only. -/
theorem C5_counterexample :
    (1 : Nat) ≤ 2
    ∧ pollChannelValues [1, 2, 3, 4] 2 0
        ≠ specDecimatedChannel [1, 2, 3, 4] 2 2 0 :=
  ⟨by decide, by decide⟩

/-- Claim C5, amended: the display path applies no decimation — it
behaves exactly as decimation factor D = 1, keeping every complete scan
in full for every channel, so all channels keep values from identical
scan indices; and the lines a poll persists to the log are independent
of the display-buffer state. -/
theorem C5_display_no_decimation :
    (∀ (block : List Val) (K ch : Nat),
      pollChannelValues block K ch = specDecimatedChannel block K 1 ch)
    ∧ (∀ (cfg : Config) (s1 s2 : LJState) (block : List Val)
        (ts : Nat → Val) (a1 b1 a2 b2 : Nat),
        s1.fileLines = s2.fileLines →
        (readStreamData cfg s1 (.blockData block ts a1 b1)).1.fileLines
          = (readStreamData cfg s2 (.blockData block ts a2 b2)).1.fileLines) := by
  constructor
  · intro block K ch
    unfold pollChannelValues specDecimatedChannel
    rw [List.filter_eq_self.mpr (fun a _ => by simp [Nat.mod_one])]
  · intro cfg s1 s2 block ts a1 b1 a2 b2 h
    simp [readStreamData, h]

/-- Witness for C5: decimation factor 1 keeps both scans of [1,2,3,4] on
channel 0, and two states with equal file contents but different display
buffers persist the same lines for the poll of block [1,2]. -/
theorem C5_witness :
    pollChannelValues [1, 2, 3, 4] 2 0
      = specDecimatedChannel [1, 2, 3, 4] 2 1 0
    ∧ (readStreamData defaultConfig (initState defaultConfig)
        (.blockData [1, 2] (fun _ => 0) 0 0)).1.fileLines
      = (readStreamData defaultConfig
          { initState defaultConfig with plotBuffers := [] }
          (.blockData [1, 2] (fun _ => 0) 0 0)).1.fileLines :=
  ⟨C5_display_no_decimation.1 [1, 2, 3, 4] 2 0,
   C5_display_no_decimation.2 defaultConfig (initState defaultConfig)
     { initState defaultConfig with plotBuffers := [] } [1, 2]
     (fun _ => 0) 0 0 0 0 rfl⟩

theorem getD_take (l : List α) (d : α) (m j : Nat) (h : j < m) :
    (l.take m).getD j d = l.getD j d := by
  rw [List.getD_eq_getD_get?, List.getD_eq_getD_get?,
    List.get?_eq_getElem?, List.get?_eq_getElem?, List.getElem?_take,
    if_pos h]

theorem getD_drop (l : List α) (d : α) (m j : Nat) :
    (l.drop m).getD j d = l.getD (m + j) d := by
  rw [List.getD_eq_getD_get?, List.getD_eq_getD_get?,
    List.get?_eq_getElem?, List.get?_eq_getElem?, List.getElem?_drop]

theorem mul_div_self_le (len K : Nat) : K * (len / K) ≤ len := by
  rw [mul_comm]
  exact Nat.div_mul_le_self len K

theorem take_complete_length (block : List Val) (K : Nat) (hK : 0 < K) :
    (block.take (K * (block.length / K))).length / K
      = block.length / K := by
  rw [List.length_take,
    min_eq_left (mul_div_self_le block.length K),
    Nat.mul_div_cancel_left _ hK]

theorem getD_take_complete (block : List Val) (K i ch : Nat)
    (hi : i < block.length / K) (hch : ch < K) :
    (block.take (K * (block.length / K))).getD (i * K + ch) 0
      = block.getD (i * K + ch) 0 := by
  apply getD_take
  have h1 : (i + 1) * K ≤ block.length / K * K :=
    Nat.mul_le_mul_right K (by omega)
  have h2 : (i + 1) * K = i * K + K := by ring
  have h3 : block.length / K * K = K * (block.length / K) := by ring
  omega

theorem pollChannelValues_take (block : List Val) (K ch : Nat)
    (hK : 0 < K) (hch : ch < K) :
    pollChannelValues (block.take (K * (block.length / K))) K ch
      = pollChannelValues block K ch := by
  unfold pollChannelValues
  rw [take_complete_length block K hK]
  exact List.map_congr_left (fun i hi =>
    getD_take_complete block K i ch (List.mem_range.mp hi) hch)

theorem scanOf_take (block : List Val) (K i : Nat)
    (hi : i < block.length / K) :
    scanOf (block.take (K * (block.length / K))) K i
      = scanOf block K i := by
  unfold scanOf
  exact List.map_congr_left (fun ch hch =>
    getD_take_complete block K i ch hi (List.mem_range.mp hch))

theorem pollLines_take (block : List Val) (K : Nat) (ts : Nat → Val)
    (hK : 0 < K) :
    pollLines (block.take (K * (block.length / K))) K ts
      = pollLines block K ts := by
  unfold pollLines
  rw [take_complete_length block K hK]
  exact List.map_congr_left (fun i hi => by
    rw [scanOf_take block K i (List.mem_range.mp hi)])

theorem appendToBuffers_take (block : List Val) (K : Nat) (hK : 0 < K)
    (bufs : List (Deque Val)) :
    ∀ ch : Nat,
      appendToBuffers (block.take (K * (block.length / K))) K ch bufs
        = appendToBuffers block K ch bufs := by
  induction bufs with
  | nil => intro ch; rfl
  | cons d rest ih =>
      intro ch
      by_cases hch : ch < K
      · simp [appendToBuffers, hch,
          pollChannelValues_take block K ch hK hch, ih (ch + 1)]
      · simp [appendToBuffers, hch, ih (ch + 1)]

theorem count_pollLines (block : List Val) (K : Nat) (ts : Nat → Val) :
    ((pollLines block K ts).filter FileLine.isScan).length
      = block.length / K := by
  have hall : ∀ a ∈ pollLines block K ts, FileLine.isScan a = true := by
    intro a ha
    obtain ⟨i, _, rfl⟩ := List.mem_map.mp ha
    rfl
  rw [List.filter_eq_self.mpr hall]
  simp [pollLines]

/-- Claim C9, confirmed: a poll whose block length is not a multiple of
the channel count behaves exactly as the same poll on the block cut down
to its complete scans — the trailing values reach neither the file nor
any buffer nor any other state a later poll could see — and exactly
floor(len/K) scans are appended to the log. -/
theorem C9_trailing_values_dropped (cfg : Config) (s : LJState)
    (block : List Val) (ts : Nat → Val) (a b : Nat)
    (hK : 0 < cfg.numChannels) :
    readStreamData cfg s (.blockData block ts a b)
      = readStreamData cfg s
          (.blockData
            (block.take
              (cfg.numChannels * (block.length / cfg.numChannels)))
            ts a b)
    ∧ totalScansWritten
        (readStreamData cfg s (.blockData block ts a b)).1
      = totalScansWritten s + block.length / cfg.numChannels := by
  constructor
  · simp only [readStreamData]
    rw [pollLines_take block cfg.numChannels ts hK,
      appendToBuffers_take block cfg.numChannels hK s.plotBuffers 0]
  · simp only [readStreamData, totalScansWritten]
    rw [List.filter_append, List.length_append,
      count_pollLines block cfg.numChannels ts]

/-- Witness for C9: with two channels, the block [1,2,3] acts exactly as
its complete-scan prefix [1,2], and one scan is logged. -/
theorem C9_witness :
    readStreamData defaultConfig streamingExample
        (.blockData [1, 2, 3] (fun _ => 0) 0 0)
      = readStreamData defaultConfig streamingExample
          (.blockData
            ([1, 2, 3].take
              (defaultConfig.numChannels
                * ([(1 : Val), 2, 3].length / defaultConfig.numChannels)))
            (fun _ => 0) 0 0)
    ∧ totalScansWritten
        (readStreamData defaultConfig streamingExample
          (.blockData [1, 2, 3] (fun _ => 0) 0 0)).1
      = totalScansWritten streamingExample
        + [(1 : Val), 2, 3].length / defaultConfig.numChannels :=
  C9_trailing_values_dropped defaultConfig streamingExample [1, 2, 3]
    (fun _ => 0) 0 0 (by decide)

theorem readBack_append (l1 l2 : List FileLine) :
    readBack (l1 ++ l2) = readBack l1 ++ readBack l2 :=
  List.filterMap_append ..

theorem readBack_scanLines (f : Nat → Val) (g : Nat → List Val)
    (l : List Nat) :
    readBack (l.map (fun i => FileLine.scanLine (f i) (g i))) = l.map g := by
  induction l with
  | nil => rfl
  | cons a l ih =>
      simp only [List.map_cons]
      simpa [readBack] using ih

theorem readBack_pollLines (block : List Val) (K : Nat) (ts : Nat → Val) :
    readBack (pollLines block K ts) = scansIn block K :=
  readBack_scanLines ts (scanOf block K) (List.range (block.length / K))

theorem runPolls_data_fileLines (cfg : Config)
    (bs : List ((List Val) × (Nat → Val))) :
    ∀ s : LJState,
      (runPolls cfg s
        (bs.map (fun p => PollResult.blockData p.1 p.2 0 0))).1.fileLines
      = s.fileLines
        ++ (bs.map (fun p => pollLines p.1 cfg.numChannels p.2)).flatten := by
  induction bs with
  | nil => intro s; simp [runPolls]
  | cons p bs ih =>
      intro s
      simp [runPolls, readStreamData, ih]

theorem readBack_flatten_pollLines (K : Nat)
    (bs : List ((List Val) × (Nat → Val))) :
    readBack ((bs.map (fun p => pollLines p.1 K p.2)).flatten)
      = (bs.map (fun p => scansIn p.1 K)).flatten := by
  induction bs with
  | nil => rfl
  | cons p bs ih =>
      simp only [List.map_cons, List.flatten_cons]
      rw [readBack_append, readBack_pollLines, ih]

theorem scansIn_row_length (block : List Val) (K : Nat) :
    ∀ row ∈ scansIn block K, row.length = K := by
  intro row hrow
  obtain ⟨i, _, rfl⟩ := List.mem_map.mp hrow
  simp [scanOf]

theorem range_map_getD_take (l : List α) (d : α) :
    ∀ n, n ≤ l.length →
      (List.range n).map (fun j => l.getD j d) = l.take n := by
  intro n
  induction n with
  | zero => simp
  | succ n ih =>
      intro h
      have hn : n < l.length := by omega
      rw [List.range_succ, List.map_append, ih (by omega),
        List.take_succ]
      have hsome : l[n]?.toList = [l[n]] := by
        rw [List.getElem?_eq_getElem hn]
        rfl
      rw [hsome]
      simp only [List.map_cons, List.map_nil]
      rw [List.getD_eq_getElem l d hn]

theorem scanOf_eq_drop_take (block : List Val) (K i : Nat)
    (h : i * K + K ≤ block.length) :
    scanOf block K i = (block.drop (i * K)).take K := by
  unfold scanOf
  have hlen : K ≤ (block.drop (i * K)).length := by
    simp [List.length_drop]
    omega
  rw [← range_map_getD_take (block.drop (i * K)) 0 K hlen]
  exact List.map_congr_left (fun ch _ => (getD_drop block 0 (i * K) ch).symm)

theorem scans_flatten_take (block : List Val) (K : Nat) :
    ∀ n, n * K ≤ block.length →
      ((List.range n).map (scanOf block K)).flatten = block.take (n * K) := by
  intro n
  induction n with
  | zero => simp
  | succ n ih =>
      intro h
      have hmul : (n + 1) * K = n * K + K := by ring
      have h1 : n * K ≤ block.length := by omega
      rw [List.range_succ, List.map_append, List.flatten_append,
        ih h1]
      have h2 : n * K + K ≤ block.length := by omega
      simp only [List.map_cons, List.map_nil, List.flatten_cons,
        List.flatten_nil, List.append_nil]
      rw [scanOf_eq_drop_take block K n h2, ← List.take_add, ← hmul]

theorem scansIn_flatten (block : List Val) (K : Nat)
    (h : K ∣ block.length) :
    (scansIn block K).flatten = block := by
  unfold scansIn
  rw [scans_flatten_take block K (block.length / K)
    (Nat.div_mul_le_self block.length K),
    Nat.div_mul_cancel h, List.take_length]

theorem flatten_scansIn_blocks (K : Nat) :
    ∀ (bs : List ((List Val) × (Nat → Val))),
      (∀ p ∈ bs, K ∣ p.1.length) →
      ((bs.map (fun p => scansIn p.1 K)).flatten).flatten
        = (bs.map Prod.fst).flatten := by
  intro bs
  induction bs with
  | nil => intro _; rfl
  | cons p bs ih =>
      intro h
      simp only [List.map_cons, List.flatten_cons, List.flatten_append]
      rw [scansIn_flatten p.1 K (h p (by simp)),
        ih (fun q hq => h q (by simp [hq]))]

/-- Claim C1, amended: the persisted log is CSV text, not a raw binary
sequence — a header line, then one line per scan carrying a wall-clock
timestamp followed by that scan's channel values in channel order, scans
in call order across all polls. A reader knowing only the channel layout
reconstructs the scan-by-channel array by dropping the header and the
timestamp field: every reconstructed row has exactly numChannels values,
and when each block is a whole number of scans the rows concatenate
exactly to the values passed across all polls in call order. -/
theorem C1_csv_roundtrip (cfg : Config)
    (bs : List ((List Val) × (Nat → Val)))
    (hdiv : ∀ p ∈ bs, cfg.numChannels ∣ p.1.length) :
    readBack (runPolls cfg
        (startStreaming cfg (initState cfg) allOk).1
        (bs.map (fun p => PollResult.blockData p.1 p.2 0 0))).1.fileLines
      = (bs.map (fun p => scansIn p.1 cfg.numChannels)).flatten
    ∧ (∀ row ∈ (bs.map (fun p => scansIn p.1 cfg.numChannels)).flatten,
        row.length = cfg.numChannels)
    ∧ ((bs.map (fun p => scansIn p.1 cfg.numChannels)).flatten).flatten
      = (bs.map Prod.fst).flatten := by
  refine ⟨?_, ?_, flatten_scansIn_blocks cfg.numChannels bs hdiv⟩
  · rw [runPolls_data_fileLines, readBack_append,
      readBack_flatten_pollLines]
    have hstart :
        readBack (startStreaming cfg (initState cfg) allOk).1.fileLines
          = [] := by
      simp [startStreaming, allOk, readBack, headerLine]
    rw [hstart, List.nil_append]
  · intro row hrow
    obtain ⟨l, hl, hrl⟩ := List.mem_flatten.mp hrow
    obtain ⟨p, _, rfl⟩ := List.mem_map.mp hl
    exact scansIn_row_length p.1 cfg.numChannels row hrl

/-- Two polls worth of data for the C1 witness: blocks [1,2,3,4] and
[5,6] with distinct wall clocks. -/
def c1Batches : List ((List Val) × (Nat → Val)) :=
  [([1, 2, 3, 4], fun _ => 0), ([5, 6], fun _ => 1)]

/-- Witness for C1 on two concrete polls of two complete scans and one
complete scan. -/
theorem C1_witness :
    readBack (runPolls defaultConfig
        (startStreaming defaultConfig (initState defaultConfig) allOk).1
        (c1Batches.map (fun p => PollResult.blockData p.1 p.2 0 0))).1.fileLines
      = (c1Batches.map
          (fun p => scansIn p.1 defaultConfig.numChannels)).flatten
    ∧ (∀ row ∈ (c1Batches.map
          (fun p => scansIn p.1 defaultConfig.numChannels)).flatten,
        row.length = defaultConfig.numChannels)
    ∧ ((c1Batches.map
          (fun p => scansIn p.1 defaultConfig.numChannels)).flatten).flatten
      = (c1Batches.map Prod.fst).flatten :=
  C1_csv_roundtrip defaultConfig c1Batches (by
    intro p hp
    simp only [c1Batches, List.mem_cons, List.mem_singleton] at hp
    rcases hp with rfl | rfl | hp
    · decide
    · decide
    · simp at hp)

/-- Session state after a clean default start and one poll of block
[1,2] whose wall clock reads t at every scan. -/
def c1Run (t : Val) : LJState :=
  (runPolls defaultConfig streamingExample
    [PollResult.blockData [1, 2] (fun _ => t) 0 0]).1

/-- Counterexample to claim C1 as stated: the log is not a timestamp-free
raw sequence of the sample values. Two sessions fed the identical sample
values but different wall clocks persist different logs, because every
scan line embeds a datetime.now() timestamp (and the file also opens
with a text header line). -/
theorem C1_counterexample : (c1Run 0).fileLines ≠ (c1Run 1).fileLines := by
  decide

theorem pollChannelValues_length (block : List Val) (K ch : Nat) :
    (pollChannelValues block K ch).length = block.length / K := by
  simp [pollChannelValues]

theorem Deque.extend_maxlen_length (d : Deque α) (b : List α)
    (h : d.data.length ≤ d.maxlen) :
    (d.extend b).maxlen = d.maxlen
    ∧ (d.extend b).data.length
      = min d.maxlen (d.data.length + b.length) := by
  obtain ⟨C, l⟩ := d
  rw [Deque.extend_data C l b h]
  simp [length_lastN]

theorem appendToBuffers_length (block : List Val) (K : Nat) :
    ∀ (bufs : List (Deque Val)) (ch : Nat),
      (appendToBuffers block K ch bufs).length = bufs.length := by
  intro bufs
  induction bufs with
  | nil => intro ch; rfl
  | cons d rest ih =>
      intro ch
      by_cases hch : ch < K <;> simp [appendToBuffers, hch, ih (ch + 1)]

theorem appendToBuffers_uniform (block : List Val) (K cap n : Nat)
    (hncap : n ≤ cap) :
    ∀ (bufs : List (Deque Val)) (ch : Nat),
      ch + bufs.length ≤ K →
      (∀ d ∈ bufs, d.maxlen = cap) →
      (∀ d ∈ bufs, d.data.length = n) →
      ∀ d ∈ appendToBuffers block K ch bufs,
        d.maxlen = cap
        ∧ d.data.length = min cap (n + block.length / K) := by
  intro bufs
  induction bufs with
  | nil => intro ch _ _ _ d hd; simp [appendToBuffers] at hd
  | cons b rest ih =>
      intro ch hle hmax hlen d hd
      have hch : ch < K := by
        simp only [List.length_cons] at hle
        omega
      simp only [appendToBuffers, if_pos hch, List.mem_cons] at hd
      rcases hd with rfl | hd
      · have hb1 : b.maxlen = cap := hmax b (by simp)
        have hb2 : b.data.length = n := hlen b (by simp)
        have hble : b.data.length ≤ b.maxlen := by
          rw [hb1, hb2]; exact hncap
        obtain ⟨hm, hl⟩ := Deque.extend_maxlen_length b
          (pollChannelValues block K ch) hble
        refine ⟨by rw [hm, hb1], ?_⟩
        rw [hl, hb1, hb2, pollChannelValues_length]
      · refine ih (ch + 1) ?_ ?_ ?_ d hd
        · simp only [List.length_cons] at hle
          omega
        · exact fun x hx => hmax x (by simp [hx])
        · exact fun x hx => hlen x (by simp [hx])

theorem stopStreaming_plotBuffers (s : LJState) (env : CleanupEnv) :
    (stopStreaming s env).1.plotBuffers = s.plotBuffers := by
  unfold stopStreaming cleanupStream
  split_ifs <;> rfl

/-- Invariant of the display path: one deque per configured channel, all
of capacity plot_buffer_size, all currently holding the same number of
elements, never more than the capacity. -/
def DisplayInv (cfg : Config) (s : LJState) : Prop :=
  s.plotBuffers.length = cfg.numChannels
  ∧ (∀ d ∈ s.plotBuffers, d.maxlen = cfg.plotBufferSize)
  ∧ ∃ n, n ≤ cfg.plotBufferSize ∧ ∀ d ∈ s.plotBuffers, d.data.length = n

theorem initState_display_inv (cfg : Config) :
    DisplayInv cfg (initState cfg) := by
  refine ⟨by simp [initState], ?_, 0, Nat.zero_le _, ?_⟩
  · intro d hd
    rw [List.eq_of_mem_replicate hd]
    rfl
  · intro d hd
    rw [List.eq_of_mem_replicate hd]
    rfl

theorem readStreamData_display_inv (cfg : Config) (s : LJState)
    (r : PollResult) (h : DisplayInv cfg s) :
    DisplayInv cfg (readStreamData cfg s r).1 := by
  obtain ⟨hlen, hmax, n, hn, hsame⟩ := h
  cases r with
  | blockData block ts a b =>
      refine ⟨?_, ?_,
        min cfg.plotBufferSize (n + block.length / cfg.numChannels),
        min_le_left _ _, ?_⟩
      · simpa [readStreamData, appendToBuffers_length] using hlen
      · intro d hd
        simp only [readStreamData] at hd
        exact (appendToBuffers_uniform block cfg.numChannels
          cfg.plotBufferSize n hn s.plotBuffers 0
          (by omega) hmax hsame d hd).1
      · intro d hd
        simp only [readStreamData] at hd
        exact (appendToBuffers_uniform block cfg.numChannels
          cfg.plotBufferSize n hn s.plotBuffers 0
          (by omega) hmax hsame d hd).2
  | noScans => exact ⟨hlen, hmax, n, hn, hsame⟩
  | streamFault cEnv =>
      have hpb : (readStreamData cfg s (.streamFault cEnv)).1.plotBuffers
          = s.plotBuffers := by
        simp [readStreamData, stopStreaming_plotBuffers]
      refine ⟨?_, ?_, n, hn, ?_⟩
      · rw [hpb]; exact hlen
      · intro d hd; rw [hpb] at hd; exact hmax d hd
      · intro d hd; rw [hpb] at hd; exact hsame d hd
  | readFault cEnv =>
      have hpb : (readStreamData cfg s (.readFault cEnv)).1.plotBuffers
          = s.plotBuffers := by
        simp [readStreamData, stopStreaming_plotBuffers]
      refine ⟨?_, ?_, n, hn, ?_⟩
      · rw [hpb]; exact hlen
      · intro d hd; rw [hpb] at hd; exact hmax d hd
      · intro d hd; rw [hpb] at hd; exact hsame d hd

theorem runPolls_display_inv (cfg : Config) (polls : List PollResult) :
    ∀ s : LJState, DisplayInv cfg s →
      DisplayInv cfg (runPolls cfg s polls).1 := by
  induction polls with
  | nil => intro s h; exact h
  | cons r rest ih =>
      intro s h
      exact ih _ (readStreamData_display_inv cfg s r h)

/-- Claim C10, confirmed: after any sequence of completed polls from a
fresh session, all per-channel display deques hold the same number of
elements, each bounded by the configured capacity, and every poll offers
exactly floor(len(block)/K) values to every channel — so the channel
windows never drift out of alignment. -/
theorem C10_buffers_stay_aligned (cfg : Config)
    (polls : List PollResult) :
    (∀ d ∈ (runPolls cfg (initState cfg) polls).1.plotBuffers,
      d.data.length ≤ cfg.plotBufferSize)
    ∧ (∀ d1 ∈ (runPolls cfg (initState cfg) polls).1.plotBuffers,
       ∀ d2 ∈ (runPolls cfg (initState cfg) polls).1.plotBuffers,
        d1.data.length = d2.data.length)
    ∧ ∀ (block : List Val) (ch : Nat),
        (pollChannelValues block cfg.numChannels ch).length
          = block.length / cfg.numChannels := by
  obtain ⟨-, hmax, n, hn, hsame⟩ :=
    runPolls_display_inv cfg polls (initState cfg)
      (initState_display_inv cfg)
  refine ⟨?_, ?_, fun block ch => pollChannelValues_length ..⟩
  · intro d hd
    rw [hsame d hd]
    exact hn
  · intro d1 h1 d2 h2
    rw [hsame d1 h1, hsame d2 h2]

end LJReader
